import Mathlib

/-!
Verification of the PUAR-Patients booking-eligibility and prioritization
engine against its repository.  The backend engine itself is not shipped in
the repository sources: only its feature-specification documents and the two
frontend PWAs (patient and doctor) are.  Components that live in shipped
TypeScript (the booking page, the compliance questionnaire page, the API
client) are embedded from that code; components that exist only in the
feature documents (compliance scorer, triage classifier, scarcity ranker)
are modelled from those documents and marked as such.
-/

namespace PuarPatients

/-! ## Compliance scorer (feature document: Initial Compliance Questionnaire) -/

/-- Compliance tier levels, from the compliance-level calculation table. -/
inductive ComplianceTier
  | platinum
  | gold
  | silver
  | bronze
  | probation
  deriving DecidableEq, Repr

/-- Modelled from the spec: the backend `ComplianceQuestionnaire` record (the
scoring service is absent from the shipped sources); eight 1–5 ratings and
five boolean commitments, field names from the questionnaire-fields list of
the Initial Compliance Questionnaire document. -/
structure ComplianceQuestionnaire where
  medication_adherence : ℕ
  appointment_attendance : ℕ
  lifestyle_commitment : ℕ
  communication_responsiveness : ℕ
  treatment_plan_adherence : ℕ
  health_monitoring_frequency : ℕ
  preventive_care_engagement : ℕ
  chronic_condition_management : ℕ
  commit_to_appointments : Bool
  commit_to_medication : Bool
  commit_to_communication : Bool
  commit_to_monitoring : Bool
  acknowledge_cancellation_policy : Bool
  deriving DecidableEq, Repr

/-- The eight 1–5 ratings of a questionnaire, in document order. -/
def ratingsList (q : ComplianceQuestionnaire) : List ℕ :=
  [q.medication_adherence, q.appointment_attendance, q.lifestyle_commitment,
   q.communication_responsiveness, q.treatment_plan_adherence,
   q.health_monitoring_frequency, q.preventive_care_engagement,
   q.chronic_condition_management]

/-- The five boolean commitments of a questionnaire, in document order. -/
def commitmentsList (q : ComplianceQuestionnaire) : List Bool :=
  [q.commit_to_appointments, q.commit_to_medication, q.commit_to_communication,
   q.commit_to_monitoring, q.acknowledge_cancellation_policy]

/-- Sum of the eight ratings. -/
def ratingSum (q : ComplianceQuestionnaire) : ℕ := (ratingsList q).sum

/-- Number of commitments answered `true`. -/
def countTrue (q : ComplianceQuestionnaire) : ℕ :=
  (commitmentsList q).countP (fun b => b)

/-- Modelled from the spec: `rating_score = average(all 1-5 ratings) / 5 * 100`. -/
def ratingScore (q : ComplianceQuestionnaire) : ℚ :=
  ((ratingSum q : ℚ) / 8) / 5 * 100

/-- Modelled from the spec:
`commitment_score = count(true commitments) / total_commitments * 100`. -/
def commitmentScore (q : ComplianceQuestionnaire) : ℚ :=
  ((countTrue q : ℚ) / 5) * 100

/-- Modelled from the spec:
`final_score = (rating_score * 0.6) + (commitment_score * 0.4)`. -/
def finalScoreExact (q : ComplianceQuestionnaire) : ℚ :=
  ratingScore q * (6 / 10) + commitmentScore q * (4 / 10)

/-- Modelled from the spec: the final score rounded to the nearest integer. -/
def complianceScoreInt (q : ComplianceQuestionnaire) : ℤ :=
  round (finalScoreExact q)

/-- Modelled from the spec: tier thresholds with inclusive lower bounds
(platinum ≥ 90, gold ≥ 75, silver ≥ 60, bronze ≥ 40, else probation). -/
def tierOfScore (s : ℤ) : ComplianceTier :=
  if 90 ≤ s then ComplianceTier.platinum
  else if 75 ≤ s then ComplianceTier.gold
  else if 60 ≤ s then ComplianceTier.silver
  else if 40 ≤ s then ComplianceTier.bronze
  else ComplianceTier.probation

/-- Modelled from the spec: `computeCompliance(questionnaire) -> {score, tier}`
(the engine entry point of §6; its implementation is absent from the shipped
sources). -/
def computeCompliance (q : ComplianceQuestionnaire) : ℤ × ComplianceTier :=
  (complianceScoreInt q, tierOfScore (complianceScoreInt q))

/-- A questionnaire is valid when every rating lies in [1,5]. -/
def ValidQ (q : ComplianceQuestionnaire) : Prop :=
  ∀ r ∈ ratingsList q, 1 ≤ r ∧ r ≤ 5

instance (q : ComplianceQuestionnaire) : Decidable (ValidQ q) :=
  List.decidableBAll _ _

theorem finalScoreExact_eq (q : ComplianceQuestionnaire) :
    finalScoreExact q = 3 * (ratingSum q : ℚ) / 2 + 8 * (countTrue q : ℚ) := by
  unfold finalScoreExact ratingScore commitmentScore
  ring

theorem ratingSum_bounds (q : ComplianceQuestionnaire) (h : ValidQ q) :
    8 ≤ ratingSum q ∧ ratingSum q ≤ 40 := by
  obtain ⟨q1, q2, q3, q4, q5, q6, q7, q8, c1, c2, c3, c4, c5⟩ := q
  have h1 := h q1 (by simp [ratingsList])
  have h2 := h q2 (by simp [ratingsList])
  have h3 := h q3 (by simp [ratingsList])
  have h4 := h q4 (by simp [ratingsList])
  have h5 := h q5 (by simp [ratingsList])
  have h6 := h q6 (by simp [ratingsList])
  have h7 := h q7 (by simp [ratingsList])
  have h8 := h q8 (by simp [ratingsList])
  simp only [ratingSum, ratingsList, List.sum_cons, List.sum_nil]
  omega

theorem countTrue_le (q : ComplianceQuestionnaire) : countTrue q ≤ 5 := by
  have h := List.countP_le_length (l := commitmentsList q) (p := fun b => b)
  simpa [commitmentsList] using h

theorem finalScoreExact_bounds (q : ComplianceQuestionnaire) (h : ValidQ q) :
    12 ≤ finalScoreExact q ∧ finalScoreExact q ≤ 100 := by
  obtain ⟨hlo, hhi⟩ := ratingSum_bounds q h
  have hc := countTrue_le q
  rw [finalScoreExact_eq]
  have hlo' : (8 : ℚ) ≤ (ratingSum q : ℚ) := by exact_mod_cast hlo
  have hhi' : (ratingSum q : ℚ) ≤ 40 := by exact_mod_cast hhi
  have hc' : (countTrue q : ℚ) ≤ 5 := by exact_mod_cast hc
  have hc0 : (0 : ℚ) ≤ (countTrue q : ℚ) := by positivity
  constructor <;> linarith

theorem complianceScoreInt_bounds (q : ComplianceQuestionnaire) (h : ValidQ q) :
    0 ≤ complianceScoreInt q ∧ complianceScoreInt q ≤ 100 := by
  obtain ⟨hlo, hhi⟩ := finalScoreExact_bounds q h
  unfold complianceScoreInt
  rw [round_eq]
  constructor
  · exact Int.le_floor.mpr (by push_cast; linarith)
  · have hfl : (↑⌊finalScoreExact q + 1 / 2⌋ : ℚ) ≤ finalScoreExact q + 1 / 2 :=
      Int.floor_le _
    have : (↑⌊finalScoreExact q + 1 / 2⌋ : ℚ) < 101 := by linarith
    exact_mod_cast Int.lt_add_one_iff.mp (by exact_mod_cast this)

/-- C1: for every valid compliance questionnaire, `computeCompliance` returns
the score `round((mean of the 8 ratings / 5 * 100) * 0.6 +
(count of true booleans / 5 * 100) * 0.4)`, the score lies in [0,100], and the
tier is determined by inclusive lower bounds (platinum ≥ 90, gold ≥ 75,
silver ≥ 60, bronze ≥ 40, else probation), so a score of exactly 90 yields
platinum. -/
theorem computeCompliance_spec (q : ComplianceQuestionnaire) (h : ValidQ q) :
    (computeCompliance q).1 =
      round ((((ratingSum q : ℚ) / 8) / 5 * 100) * (6 / 10) +
        (((countTrue q : ℚ) / 5) * 100) * (4 / 10)) ∧
    0 ≤ (computeCompliance q).1 ∧ (computeCompliance q).1 ≤ 100 ∧
    ((computeCompliance q).2 = ComplianceTier.platinum ↔
      90 ≤ (computeCompliance q).1) ∧
    ((computeCompliance q).2 = ComplianceTier.gold ↔
      75 ≤ (computeCompliance q).1 ∧ (computeCompliance q).1 < 90) ∧
    ((computeCompliance q).2 = ComplianceTier.silver ↔
      60 ≤ (computeCompliance q).1 ∧ (computeCompliance q).1 < 75) ∧
    ((computeCompliance q).2 = ComplianceTier.bronze ↔
      40 ≤ (computeCompliance q).1 ∧ (computeCompliance q).1 < 60) ∧
    ((computeCompliance q).2 = ComplianceTier.probation ↔
      (computeCompliance q).1 < 40) ∧
    ((computeCompliance q).1 = 90 →
      (computeCompliance q).2 = ComplianceTier.platinum) := by
  obtain ⟨h0, h100⟩ := complianceScoreInt_bounds q h
  refine ⟨rfl, h0, h100, ?_, ?_, ?_, ?_, ?_, ?_⟩ <;>
    simp only [computeCompliance, tierOfScore] <;>
    split_ifs <;> simp_all <;> omega

/-- Witness for C1 at a concrete questionnaire: all ratings 5, all
commitments true. -/
theorem computeCompliance_spec_witness :
    ValidQ (ComplianceQuestionnaire.mk 5 5 5 5 5 5 5 5
      true true true true true) ∧
    (0 ≤ (computeCompliance (ComplianceQuestionnaire.mk 5 5 5 5 5 5 5 5
      true true true true true)).1 ∧
     (computeCompliance (ComplianceQuestionnaire.mk 5 5 5 5 5 5 5 5
      true true true true true)).1 ≤ 100) := by
  have hv : ValidQ (ComplianceQuestionnaire.mk 5 5 5 5 5 5 5 5
      true true true true true) := by decide
  have hmain := computeCompliance_spec
    (ComplianceQuestionnaire.mk 5 5 5 5 5 5 5 5 true true true true true) hv
  exact ⟨hv, hmain.2.1, hmain.2.2.1⟩

/-! ## Triage classifier (feature document: Cancellation/Reschedule Logic) -/

/-- Request kinds for a triage questionnaire. -/
inductive RequestKind
  | cancel
  | reschedule
  deriving DecidableEq, Repr

/-- Reason categories of the triage questionnaire. -/
inductive ReasonCategory
  | work
  | health
  | family
  | transport
  | other
  deriving DecidableEq, Repr

/-- Urgency levels of a triage verdict. -/
inductive Urgency
  | emergency
  | urgent
  | moderate
  | routine
  deriving DecidableEq, Repr

/-- Modelled from the spec: the triage questionnaire fields of the
Cancellation/Reschedule Logic document (the classifier implementation is
absent from the shipped sources). -/
structure TriageFields where
  request_type : RequestKind
  reason_category : ReasonCategory
  condition_changed : Bool
  symptoms_worsened : Bool
  new_symptoms : Bool
  available_within_week : Bool
  acknowledges_impact : Bool
  commits_to_new_appointment : Bool
  deriving DecidableEq, Repr

/-- A triage verdict: urgency plus the auto-approval decision. -/
structure TriageVerdict where
  urgency : Urgency
  autoApproved : Bool
  deriving DecidableEq, Repr

/-- Evaluate an ordered list of (predicate, result) rules top-down, first
match wins, falling back to a default. -/
def firstMatch {α β : Type} (rules : List ((α → Bool) × β)) (dflt : β)
    (a : α) : β :=
  match rules with
  | [] => dflt
  | (p, v) :: rest => if p a then v else firstMatch rest dflt a

/-- Modelled from the spec: the urgency-calculation decision table, in its
fixed order — `symptoms_worsened OR new_symptoms` gives URGENT with review,
then `condition_changed` gives MODERATE with review. -/
def triageRules : List ((TriageFields → Bool) × TriageVerdict) :=
  [(fun t => t.symptoms_worsened || t.new_symptoms,
      TriageVerdict.mk Urgency.urgent false),
   (fun t => t.condition_changed,
      TriageVerdict.mk Urgency.moderate false)]

/-- Modelled from the spec: `classifyTriage(triageFields) -> {urgency,
autoApproved}` — the decision table evaluated top-down with the ROUTINE
auto-approve fallback. -/
def classifyTriage (t : TriageFields) : TriageVerdict :=
  firstMatch triageRules (TriageVerdict.mk Urgency.routine true) t

/-- C2: `classifyTriage` follows the fixed first-match-wins order: if
`symptoms_worsened` or `new_symptoms` is true the result is urgent and not
auto-approved regardless of all other fields; if only `condition_changed` is
true the result is moderate and not auto-approved; and if all three
clinical-change flags are false the result is routine and auto-approved. -/
theorem classifyTriage_order (t : TriageFields) :
    ((t.symptoms_worsened = true ∨ t.new_symptoms = true) →
      classifyTriage t = TriageVerdict.mk Urgency.urgent false) ∧
    ((t.symptoms_worsened = false ∧ t.new_symptoms = false ∧
        t.condition_changed = true) →
      classifyTriage t = TriageVerdict.mk Urgency.moderate false) ∧
    ((t.symptoms_worsened = false ∧ t.new_symptoms = false ∧
        t.condition_changed = false) →
      classifyTriage t = TriageVerdict.mk Urgency.routine true) := by
  obtain ⟨rt, rc, cc, sw, ns, aw, ai, cn⟩ := t
  cases sw <;> cases ns <;> cases cc <;>
    simp [classifyTriage, firstMatch, triageRules]

/-- Witness for C2: a request with worsened symptoms is urgent and not
auto-approved even with every other field set favorably. -/
theorem classifyTriage_order_witness :
    classifyTriage (TriageFields.mk RequestKind.cancel ReasonCategory.work
      false true false true true true) =
      TriageVerdict.mk Urgency.urgent false :=
  (classifyTriage_order (TriageFields.mk RequestKind.cancel
    ReasonCategory.work false true false true true true)).1 (Or.inl rfl)

/-! ## Patient booking page (frontend/patient/src/pages/ProfilePage.tsx,
NewBookingPage) and slots API (frontend api client) -/

/-- The booking-window response consumed by `NewBookingPage`
(`patientApi.getBookingWindow`): `can_book`, an optional `reason`, and an
optional `earliest_date` (dates as day numbers). -/
structure BWindow where
  can_book : Bool
  reason : Option String
  earliest_date : Option Int
  deriving DecidableEq, Repr

/-- Component state of `NewBookingPage` relevant to query gating: the loaded
booking window, the `isEmergency` flag, and the selected date. -/
structure PageState where
  window : Option BWindow
  isEmergency : Bool
  selectedDate : Option Int
  deriving DecidableEq, Repr

/-- Initial React state: no window loaded, `isEmergency` false,
`selectedDate` null. -/
def initPageState : PageState :=
  PageState.mk none false none

/-- `const canBook = bookingWindow?.can_book ?? false`. -/
def canBook (s : PageState) : Bool :=
  (s.window.map (fun w => w.can_book)).getD false

/-- The available-dates query gate:
`enabled: bookingWindow?.can_book || isEmergency`. -/
def datesQueryEnabled (s : PageState) : Bool :=
  canBook s || s.isEmergency

/-- The slots query gate: `enabled: !!selectedDate`. -/
def slotsQueryEnabled (s : PageState) : Bool :=
  s.selectedDate.isSome

/-- What the page renders: the blocked notice (carrying the window's reason
and optional earliest date) or the booking flow. -/
inductive Rendered
  | blocked (reason : Option String) (earliest : Option Int)
  | flow
  deriving DecidableEq, Repr

/-- The early return `if (!canBook && bookingWindow && !isEmergency)`
rendering the blocked notice with `bookingWindow.reason` and, when present,
`bookingWindow.earliest_date`. -/
def renderPage (s : PageState) : Rendered :=
  match s.window with
  | some w =>
      if !w.can_book && !s.isEmergency then Rendered.blocked w.reason w.earliest_date
      else Rendered.flow
  | none => Rendered.flow

/-- UI transitions of `NewBookingPage`: the booking-window query resolving,
the emergency button on the blocked notice, the emergency checkbox on the
flow page (which clears the selected date), the back-to-normal button
(which clears the selected date), and clicking a calendar tile (tiles exist
only when `canBook || isEmergency`, since the date grid is empty
otherwise). -/
inductive PageStep : PageState → PageState → Prop
  | loadWindow (s : PageState) (w : BWindow) (h : s.window = none) :
      PageStep s (PageState.mk (some w) s.isEmergency s.selectedDate)
  | emergencyOnBlocked (s : PageState) (r : Option String) (e : Option Int)
      (h : renderPage s = Rendered.blocked r e) :
      PageStep s (PageState.mk s.window true s.selectedDate)
  | emergencyOnToggle (s : PageState) (h : canBook s = true)
      (h2 : s.isEmergency = false) :
      PageStep s (PageState.mk s.window true none)
  | emergencyOff (s : PageState) (h : s.isEmergency = true) :
      PageStep s (PageState.mk s.window false none)
  | selectDate (s : PageState) (d : Int) (h : datesQueryEnabled s = true) :
      PageStep s (PageState.mk s.window s.isEmergency (some d))

/-- States of `NewBookingPage` reachable from the initial render. -/
inductive PageReachable : PageState → Prop
  | init : PageReachable initPageState
  | step {s s2 : PageState} (h : PageReachable s) (hs : PageStep s s2) :
      PageReachable s2

theorem pageInvariant {s : PageState} (h : PageReachable s) :
    s.selectedDate.isSome = true → datesQueryEnabled s = true := by
  induction h with
  | init => intro hc; cases hc
  | step h hs ih =>
      cases hs with
      | loadWindow w hw =>
          intro hc
          have h2 := ih hc
          simp [datesQueryEnabled, canBook, hw] at h2
          simp [datesQueryEnabled, canBook, h2]
      | emergencyOnBlocked r e hb => intro hc; simp [datesQueryEnabled]
      | emergencyOnToggle hcb h2 => intro hc; simp [datesQueryEnabled]
      | emergencyOff he => intro hc; cases hc
      | selectDate d hd =>
          intro hc
          simpa [datesQueryEnabled] using hd

/-- C4: in every reachable state of the booking page, slot availability is
fetched only when `can_book` is true or emergency mode is on; and whenever
the window has loaded with `can_book` false and emergency mode off, neither
the available-dates query nor the slots query is enabled and the page
renders the blocked notice carrying the window's reason and earliest
date. -/
theorem bookingPage_gating :
    (∀ s : PageState, PageReachable s →
      (datesQueryEnabled s = true ∨ slotsQueryEnabled s = true) →
      (canBook s = true ∨ s.isEmergency = true)) ∧
    (∀ s : PageState, PageReachable s → ∀ w : BWindow,
      s.window = some w → w.can_book = false → s.isEmergency = false →
      datesQueryEnabled s = false ∧ slotsQueryEnabled s = false ∧
        renderPage s = Rendered.blocked w.reason w.earliest_date) := by
  constructor
  · intro s hs hen
    rcases hen with hen | hen
    · simpa [datesQueryEnabled] using hen
    · have := pageInvariant hs (by simpa [slotsQueryEnabled] using hen)
      simpa [datesQueryEnabled] using this
  · intro s hs w hw hcb he
    have hcb' : canBook s = false := by simp [canBook, hw, hcb]
    have hde : datesQueryEnabled s = false := by
      simp [datesQueryEnabled, hcb', he]
    refine ⟨hde, ?_, ?_⟩
    · by_contra hsel
      have hsel' : slotsQueryEnabled s = true := by
        cases hx : slotsQueryEnabled s
        · exact absurd hx hsel
        · rfl
      have := pageInvariant hs (by simpa [slotsQueryEnabled] using hsel')
      rw [hde] at this
      cases this
    · simp [renderPage, hw, hcb, he]

/-- Witness for C4: after the window loads with `can_book = false`, nothing
is fetched and the blocked notice shows the reason. -/
theorem bookingPage_gating_witness :
    datesQueryEnabled (PageState.mk
      (some (BWindow.mk false (some "existing active booking") none))
      false none) = false ∧
    slotsQueryEnabled (PageState.mk
      (some (BWindow.mk false (some "existing active booking") none))
      false none) = false ∧
    renderPage (PageState.mk
      (some (BWindow.mk false (some "existing active booking") none))
      false none) =
      Rendered.blocked (some "existing active booking") none :=
  bookingPage_gating.2
    (PageState.mk (some (BWindow.mk false (some "existing active booking") none))
      false none)
    (PageReachable.step PageReachable.init
      (PageStep.loadWindow initPageState
        (BWindow.mk false (some "existing active booking") none) rfl))
    (BWindow.mk false (some "existing active booking") none) rfl rfl rfl

/-- Booking-window days granted by each compliance tier, from the
compliance-level benefits table (platinum 90, gold 60, silver 45, bronze 30,
probation 14). -/
def tierWindowDays (t : ComplianceTier) : Int :=
  match t with
  | ComplianceTier.platinum => 90
  | ComplianceTier.gold => 60
  | ComplianceTier.silver => 45
  | ComplianceTier.bronze => 30
  | ComplianceTier.probation => 14

/-- `getStartDate` of `NewBookingPage`: emergency bookings start today;
otherwise the later of `bookingWindow.earliest_date` and today; today when
no earliest date is on file. -/
def getStartDate (today : Int) (bw : Option BWindow) (isEmergency : Bool) :
    Int :=
  if isEmergency then today
  else
    match bw with
    | some w =>
        match w.earliest_date with
        | some e => max e today
        | none => today
    | none => today

/-- `const canBook = bookingWindow?.can_book ?? false` over the raw query
data. -/
def canBookWindow (bw : Option BWindow) : Bool :=
  (bw.map (fun w => w.can_book)).getD false

/-- The date grid of `NewBookingPage`:
`(canBook || isEmergency) ? Array.from({length: 30}, (_, i) =>
addDays(startDate, i)) : []`. -/
def availableDatesList (today : Int) (bw : Option BWindow)
    (isEmergency : Bool) : List Int :=
  if canBookWindow bw || isEmergency then
    (List.range 30).map (fun i => getStartDate today bw isEmergency + i)
  else []

/-- Counterexample to C5: with `can_book` true, `earliest_date` = today,
a probation-tier patient and a doctor window of 30 days, the claimed cap is
`today + min 30 14 = today + 14`, yet the page's date grid reaches
`today + 29`. -/
theorem availableDates_latest_cex :
    ¬ (∀ d ∈ availableDatesList 0 (some (BWindow.mk true none (some 0))) false,
        d ≤ 0 + min 30 (tierWindowDays ComplianceTier.probation)) := by
  intro h
  have h29 : (29 : Int) ∈
      availableDatesList 0 (some (BWindow.mk true none (some 0))) false := by
    decide
  have := h 29 h29
  simp [tierWindowDays] at this

/-- C5 (amended): with `can_book` true in non-emergency mode, the date grid
offered by the booking page is exactly the 30 consecutive days starting at
`max(earliest_bookable_date, today)` — starting at today when no earliest
date is present — with no client-side cap at
`today + min(doctor.booking_window_days, tier_window_days(tier))`. -/
theorem availableDates_window (today : Int) (w : BWindow)
    (h : w.can_book = true) :
    availableDatesList today (some w) false =
      (List.range 30).map
        (fun i => getStartDate today (some w) false + i) ∧
    (∀ e, w.earliest_date = some e →
      getStartDate today (some w) false = max e today) ∧
    (w.earliest_date = none → getStartDate today (some w) false = today) := by
  refine ⟨?_, ?_, ?_⟩
  · simp [availableDatesList, canBookWindow, h]
  · intro e he
    simp [getStartDate, he]
  · intro he
    simp [getStartDate, he]

/-- Witness for C5 (amended) at today = 0 with earliest date 5. -/
theorem availableDates_window_witness :
    availableDatesList 0 (some (BWindow.mk true none (some 5))) false =
      (List.range 30).map
        (fun i => getStartDate 0 (some (BWindow.mk true none (some 5))) false + i) ∧
    getStartDate 0 (some (BWindow.mk true none (some 5))) false = max 5 0 := by
  have h := availableDates_window 0 (BWindow.mk true none (some 5)) rfl
  exact ⟨h.1, h.2.1 5 rfl⟩

/-- The three slot-availability endpoints used by the booking page
(`slotsApi` in the frontend API client): the emergency-only pool
`/slots/available/emergency`, the general `/slots/available-dates`, and the
general `/slots/available`. -/
inductive SlotsEndpoint
  | emergencySlots
  | generalDates
  | generalSlots
  deriving DecidableEq, Repr

/-- Endpoint chosen by the available-dates query of `NewBookingPage`:
`slotsApi.getEmergencySlots` when `isEmergency`, else
`slotsApi.getAvailableDates`. -/
def datesQueryEndpoint (isEmergency : Bool) : SlotsEndpoint :=
  if isEmergency then SlotsEndpoint.emergencySlots
  else SlotsEndpoint.generalDates

/-- Endpoint chosen by the per-date slots query of `NewBookingPage`:
`slotsApi.getEmergencySlots` when `isEmergency`, else
`slotsApi.getAvailable`. -/
def slotsQueryEndpoint (isEmergency : Bool) : SlotsEndpoint :=
  if isEmergency then SlotsEndpoint.emergencySlots
  else SlotsEndpoint.generalSlots

/-- C7: in emergency mode both the date list and the per-date slot list are
drawn from the emergency-only endpoint — never the general availability
endpoints — and the selectable date range begins today regardless of the
computed booking window. -/
theorem emergency_slot_source (today : Int) (bw : Option BWindow) :
    datesQueryEndpoint true = SlotsEndpoint.emergencySlots ∧
    slotsQueryEndpoint true = SlotsEndpoint.emergencySlots ∧
    SlotsEndpoint.emergencySlots ≠ SlotsEndpoint.generalDates ∧
    SlotsEndpoint.emergencySlots ≠ SlotsEndpoint.generalSlots ∧
    getStartDate today bw true = today := by
  refine ⟨rfl, rfl, by decide, by decide, ?_⟩
  simp [getStartDate]

/-! ## Compliance questionnaire page
(frontend/patient/src/pages/ComplianceQuestionnairePage.tsx) -/

/-- UI state of `ComplianceQuestionnairePage`: the five 1–5 rating answers
and the four agreement checkboxes. -/
structure QState where
  q1 : ℕ
  q2 : ℕ
  q3 : ℕ
  q4 : ℕ
  q5 : ℕ
  agree24h : Bool
  agreePenalty : Bool
  agreeReschedule : Bool
  agreeComms : Bool
  deriving DecidableEq, Repr

/-- Initial React state of the page: ratings default to 3, agreements to
false. -/
def initQState : QState :=
  QState.mk 3 3 3 3 3 false false false false

/-- The request body built by `submitMutation` for
`patientApi.submitComplianceQuestionnaire`. -/
structure CompliancePayload where
  missed_appointments_rating : ℕ
  cancellation_notice_rating : ℕ
  schedule_importance_rating : ℕ
  reschedule_commitment_rating : ℕ
  flexibility_rating : ℕ
  agrees_24h_cancellation : Bool
  agrees_no_show_penalty : Bool
  agrees_reschedule_policy : Bool
  agrees_communication_preferences : Bool
  deriving DecidableEq, Repr

/-- `submitMutation`'s payload construction from the page state. -/
def buildPayload (s : QState) : CompliancePayload :=
  CompliancePayload.mk s.q1 s.q2 s.q3 s.q4 s.q5
    s.agree24h s.agreePenalty s.agreeReschedule s.agreeComms

/-- The rating fields of the submitted payload, in payload order. -/
def payloadRatingFields (p : CompliancePayload) : List ℕ :=
  [p.missed_appointments_rating, p.cancellation_notice_rating,
   p.schedule_importance_rating, p.reschedule_commitment_rating,
   p.flexibility_rating]

/-- The boolean commitment fields of the submitted payload, in payload
order. -/
def payloadCommitmentFields (p : CompliancePayload) : List Bool :=
  [p.agrees_24h_cancellation, p.agrees_no_show_penalty,
   p.agrees_reschedule_policy, p.agrees_communication_preferences]

/-- C6 divergence: the payload the patient questionnaire page submits
carries five 1–5 rating fields and four boolean commitment fields — not the
eight ratings and five commitments required by the questionnaire contract —
shown here at the submission reachable from the initial state with every
checkbox checked. -/
theorem compliancePayload_shape :
    (payloadRatingFields
      (buildPayload (QState.mk 3 3 3 3 3 true true true true))).length = 5 ∧
    (payloadCommitmentFields
      (buildPayload (QState.mk 3 3 3 3 3 true true true true))).length = 4 ∧
    ¬((payloadRatingFields
        (buildPayload (QState.mk 3 3 3 3 3 true true true true))).length = 8) ∧
    ¬((payloadCommitmentFields
        (buildPayload (QState.mk 3 3 3 3 3 true true true true))).length = 5) := by
  refine ⟨rfl, rfl, by decide, by decide⟩

/-- `const allAgreed = Object.values(agreements).every(Boolean)`. -/
def allAgreed (s : QState) : Bool :=
  s.agree24h && s.agreePenalty && s.agreeReschedule && s.agreeComms

/-- The submit button's disabled condition:
`!allAgreed || submitMutation.isPending`. -/
def submitDisabled (s : QState) (isPending : Bool) : Bool :=
  !allAgreed s || isPending

/-- C9: whenever the submit button is enabled, every boolean commitment in
the submitted payload is true, so the commitment component of the score —
the fraction of true commitments — is at its maximum. -/
theorem submit_all_agreed (s : QState) (isPending : Bool)
    (h : submitDisabled s isPending = false) :
    (∀ b ∈ payloadCommitmentFields (buildPayload s), b = true) ∧
    ((payloadCommitmentFields (buildPayload s)).countP (fun b => b) : ℚ) /
        ((payloadCommitmentFields (buildPayload s)).length : ℚ) * 100 = 100 := by
  have ha : allAgreed s = true := by
    by_contra hx
    have hx' : allAgreed s = false := by
      cases h2 : allAgreed s
      · rfl
      · exact absurd h2 hx
    simp [submitDisabled, hx'] at h
  simp only [allAgreed, Bool.and_eq_true] at ha
  obtain ⟨⟨⟨h1, h2⟩, h3⟩, h4⟩ := ha
  constructor
  · intro b hb
    simp only [payloadCommitmentFields, buildPayload] at hb
    simp only [List.mem_cons, List.not_mem_nil, or_false] at hb
    rcases hb with hb | hb | hb | hb <;> subst hb <;> assumption
  · simp [payloadCommitmentFields, buildPayload, h1, h2, h3, h4,
      List.countP_cons]

/-- Witness for C9: submit enabled with all four checkboxes checked. -/
theorem submit_all_agreed_witness :
    submitDisabled (QState.mk 3 3 3 3 3 true true true true) false = false ∧
    (∀ b ∈ payloadCommitmentFields
        (buildPayload (QState.mk 3 3 3 3 3 true true true true)), b = true) :=
  ⟨by decide,
   (submit_all_agreed (QState.mk 3 3 3 3 3 true true true true) false
     (by decide)).1⟩

/-! ## Booking confirmation (NewBookingPage step 3 and bookingsApi.create) -/

/-- The body of `POST /bookings/` built by `bookingsApi.create` as invoked
from `createBookingMutation`: the urgency reason is passed only when
`isEmergency` is set (`isEmergency ? urgencyReason : undefined`). -/
structure BookingRequest where
  slot_id : String
  reason : String
  is_emergency : Bool
  urgency_reason : Option String
  deriving DecidableEq, Repr

/-- Confirmation-step state of `NewBookingPage`. -/
structure ConfirmState where
  isEmergency : Bool
  urgencyReason : String
  isPending : Bool
  deriving DecidableEq, Repr

/-- The confirm button's disabled condition:
`createBookingMutation.isPending || (isEmergency && urgencyReason.length < 10)`. -/
def confirmDisabled (c : ConfirmState) : Bool :=
  c.isPending || (c.isEmergency && decide (c.urgencyReason.length < 10))

/-- The request `createBookingMutation` sends for a selected slot. -/
def createBookingBody (slotId : String) (reason : String) (c : ConfirmState) :
    BookingRequest :=
  BookingRequest.mk slotId reason c.isEmergency
    (if c.isEmergency then some c.urgencyReason else none)

/-- C10: a booking request is sent with `is_emergency` true only when the
urgency reason has at least 10 characters (the confirm button is disabled
otherwise), and when `is_emergency` is false the `urgency_reason` field is
omitted from the request. -/
theorem emergency_reason_guard (slotId reason : String) (c : ConfirmState)
    (h : confirmDisabled c = false) :
    ((createBookingBody slotId reason c).is_emergency = true →
      10 ≤ c.urgencyReason.length ∧
      (createBookingBody slotId reason c).urgency_reason =
        some c.urgencyReason) ∧
    ((createBookingBody slotId reason c).is_emergency = false →
      (createBookingBody slotId reason c).urgency_reason = none) := by
  simp only [confirmDisabled, Bool.or_eq_false_iff, Bool.and_eq_false_iff] at h
  obtain ⟨hp, hlen⟩ := h
  constructor
  · intro he
    simp only [createBookingBody] at he
    rcases hlen with hfalse | hlen
    · rw [hfalse] at he; cases he
    · refine ⟨?_, by simp [createBookingBody, he]⟩
      have := of_decide_eq_false hlen
      omega
  · intro he
    simp only [createBookingBody] at he
    simp [createBookingBody, he]

/-- Witness for C10: an enabled emergency confirmation with a 12-character
urgency reason carries the reason in the request body. -/
theorem emergency_reason_guard_witness :
    confirmDisabled (ConfirmState.mk true "severe pains" false) = false ∧
    (10 ≤ (ConfirmState.mk true "severe pains" false).urgencyReason.length ∧
      (createBookingBody "slot1" "" (ConfirmState.mk true "severe pains" false)).urgency_reason =
        some "severe pains") :=
  ⟨by decide,
   (emergency_reason_guard "slot1" "" (ConfirmState.mk true "severe pains" false)
     (by decide)).1 rfl⟩

/-! ## Cancellation/reschedule flow (bookingsApi in the frontend API client;
the dialog flow itself is absent from the shipped sources) -/

/-- Body of `POST /bookings/{id}/cancel` built by `bookingsApi.cancel`. -/
structure CancelBody where
  triage_questionnaire_id : String
  deriving DecidableEq, Repr

/-- Body of `POST /bookings/{id}/reschedule` built by
`bookingsApi.reschedule`. -/
structure RescheduleBody where
  new_slot_id : String
  triage_questionnaire_id : String
  deriving DecidableEq, Repr

/-- `bookingsApi.cancel(bookingId, triageId)` request body. -/
def cancelBody (triageId : String) : CancelBody :=
  CancelBody.mk triageId

/-- `bookingsApi.reschedule(bookingId, newSlotId, triageId)` request body. -/
def rescheduleBody (newSlotId triageId : String) : RescheduleBody :=
  RescheduleBody.mk newSlotId triageId

/-- API requests the client can issue for a booking's lifecycle change. -/
inductive ApiRequest
  | triageSubmit (bookingId : String) (triageId : String)
  | cancel (bookingId : String) (body : CancelBody)
  | reschedule (bookingId : String) (body : RescheduleBody)
  deriving DecidableEq, Repr

/-- User-level actions in the cancellation/reschedule flow. -/
inductive ClientAction
  | submitTriage (bookingId triageId : String)
  | cancelBooking (bookingId : String)
  | rescheduleBooking (bookingId newSlotId : String)
  deriving DecidableEq, Repr

/-- The triage id on file for a booking, if a triage was completed. -/
def findTriage (st : List (String × String)) (bookingId : String) :
    Option String :=
  match st with
  | [] => none
  | p :: rest => if p.1 = bookingId then some p.2 else findTriage rest bookingId

/-- Modelled from the spec: the client flow routing every cancel/reschedule
through the triage questionnaire first (the BookingsPage buttons carry no
handlers in the shipped sources, so the dialog flow is modelled from the
spec's control flow); a completed triage records the returned questionnaire
id, and a cancel or reschedule is issued only with the id on file for that
booking, via the `bookingsApi` request bodies. -/
def runClient (acts : List ClientAction) (st : List (String × String)) :
    List ApiRequest :=
  match acts with
  | [] => []
  | ClientAction.submitTriage b tid :: rest =>
      ApiRequest.triageSubmit b tid :: runClient rest ((b, tid) :: st)
  | ClientAction.cancelBooking b :: rest =>
      match findTriage st b with
      | some tid => ApiRequest.cancel b (cancelBody tid) :: runClient rest st
      | none => runClient rest st
  | ClientAction.rescheduleBooking b ns :: rest =>
      match findTriage st b with
      | some tid =>
          ApiRequest.reschedule b (rescheduleBody ns tid) :: runClient rest st
      | none => runClient rest st

/-- The booking id and triage id referenced by a cancel or reschedule
request; `none` for a triage submission. -/
def requestTriageRef (r : ApiRequest) : Option (String × String) :=
  match r with
  | ApiRequest.triageSubmit _ _ => none
  | ApiRequest.cancel b body => some (b, body.triage_questionnaire_id)
  | ApiRequest.reschedule b body => some (b, body.triage_questionnaire_id)

theorem findTriage_mem {st : List (String × String)} {b tid : String}
    (h : findTriage st b = some tid) : (b, tid) ∈ st := by
  induction st with
  | nil => cases h
  | cons p rest ih =>
      by_cases hb : p.1 = b
      · rw [findTriage, if_pos hb] at h
        have h2 : p.2 = tid := Option.some.inj h
        have hp : p = (b, tid) := by
          obtain ⟨p1, p2⟩ := p
          simp only at hb h2
          rw [hb, h2]
        rw [hp]
        exact List.mem_cons_self _ _
      · rw [findTriage, if_neg hb] at h
        exact List.mem_cons_of_mem _ (ih h)

theorem runClient_triage_first (acts : List ClientAction)
    (st : List (String × String)) :
    ∀ l₁ r l₂, runClient acts st = l₁ ++ r :: l₂ →
      ∀ b tid, requestTriageRef r = some (b, tid) →
        (b, tid) ∈ st ∨ ApiRequest.triageSubmit b tid ∈ l₁ := by
  induction acts generalizing st with
  | nil =>
      intro l₁ r l₂ hout
      exact absurd hout (by simp [runClient])
  | cons a rest ih =>
      intro l₁ r l₂ hout b tid href
      cases a with
      | submitTriage b0 tid0 =>
          rw [runClient] at hout
          cases l₁ with
          | nil =>
              simp only [List.nil_append, List.cons.injEq] at hout
              rw [← hout.1] at href
              cases href
          | cons x l₁' =>
              simp only [List.cons_append, List.cons.injEq] at hout
              obtain ⟨hx, hout'⟩ := hout
              rcases ih ((b0, tid0) :: st) l₁' r l₂ hout' b tid href with
                hmem | hmem
              · rcases List.mem_cons.mp hmem with hp | hp
                · right
                  rw [← hx]
                  have hb : b = b0 := congrArg Prod.fst hp
                  have ht : tid = tid0 := congrArg Prod.snd hp
                  rw [hb, ht]
                  exact List.mem_cons_self _ _
                · exact Or.inl hp
              · exact Or.inr (List.mem_cons_of_mem _ hmem)
      | cancelBooking b0 =>
          rw [runClient] at hout
          cases hft : findTriage st b0 with
          | none =>
              rw [hft] at hout
              rcases ih st l₁ r l₂ hout b tid href with hmem | hmem
              · exact Or.inl hmem
              · exact Or.inr hmem
          | some tid0 =>
              rw [hft] at hout
              cases l₁ with
              | nil =>
                  simp only [List.nil_append, List.cons.injEq] at hout
                  rw [← hout.1] at href
                  simp only [requestTriageRef, cancelBody,
                    Option.some.injEq, Prod.mk.injEq] at href
                  left
                  rw [← href.1, ← href.2]
                  exact findTriage_mem hft
              | cons x l₁' =>
                  simp only [List.cons_append, List.cons.injEq] at hout
                  rcases ih st l₁' r l₂ hout.2 b tid href with hmem | hmem
                  · exact Or.inl hmem
                  · exact Or.inr (List.mem_cons_of_mem _ hmem)
      | rescheduleBooking b0 ns =>
          rw [runClient] at hout
          cases hft : findTriage st b0 with
          | none =>
              rw [hft] at hout
              rcases ih st l₁ r l₂ hout b tid href with hmem | hmem
              · exact Or.inl hmem
              · exact Or.inr hmem
          | some tid0 =>
              rw [hft] at hout
              cases l₁ with
              | nil =>
                  simp only [List.nil_append, List.cons.injEq] at hout
                  rw [← hout.1] at href
                  simp only [requestTriageRef, rescheduleBody,
                    Option.some.injEq, Prod.mk.injEq] at href
                  left
                  rw [← href.1, ← href.2]
                  exact findTriage_mem hft
              | cons x l₁' =>
                  simp only [List.cons_append, List.cons.injEq] at hout
                  rcases ih st l₁' r l₂ hout.2 b tid href with hmem | hmem
                  · exact Or.inl hmem
                  · exact Or.inr (List.mem_cons_of_mem _ hmem)

/-- C8: a cancellation or reschedule is never requested without a completed
triage — in every request sequence the client can emit from a fresh session,
each cancel and each reschedule request carries a `triage_questionnaire_id`
and is preceded by the triage submission that produced that id for the same
booking. -/
theorem cancel_requires_triage (acts : List ClientAction)
    (l₁ : List ApiRequest) (r : ApiRequest) (l₂ : List ApiRequest)
    (b tid : String) (hout : runClient acts [] = l₁ ++ r :: l₂)
    (href : requestTriageRef r = some (b, tid)) :
    ApiRequest.triageSubmit b tid ∈ l₁ := by
  rcases runClient_triage_first acts [] l₁ r l₂ hout b tid href with hmem | hmem
  · cases hmem
  · exact hmem

/-- Witness for C8: a session that submits a triage for booking "bk" and
then cancels it emits the cancel request strictly after the matching triage
submission. -/
theorem cancel_requires_triage_witness :
    ApiRequest.triageSubmit "bk" "t1" ∈ [ApiRequest.triageSubmit "bk" "t1"] :=
  cancel_requires_triage
    [ClientAction.submitTriage "bk" "t1", ClientAction.cancelBooking "bk"]
    [ApiRequest.triageSubmit "bk" "t1"]
    (ApiRequest.cancel "bk" (cancelBody "t1")) [] "bk" "t1" rfl rfl

/-! ## Scarcity prioritizer (feature document: Prioritisation Under Slot
Scarcity; absent from the shipped sources) -/

/-- Modelled from the spec: a roster entry for the Scarcity Prioritizer —
patient id, `priority_score`, `earliest_bookable_date` (day number). -/
structure RPatient where
  id : ℕ
  priority_score : ℚ
  earliest_bookable_date : Int
  deriving DecidableEq, Repr

/-- Modelled from the spec: the ranking order — descending by
`priority_score`, ties broken by earlier `earliest_bookable_date`, then by
patient id for total determinism. `rankLE a b` says a is ranked at or before
b. -/
def rankLE (a b : RPatient) : Prop :=
  b.priority_score < a.priority_score ∨
    (a.priority_score = b.priority_score ∧
      (a.earliest_bookable_date < b.earliest_bookable_date ∨
        (a.earliest_bookable_date = b.earliest_bookable_date ∧ a.id ≤ b.id)))

instance : DecidableRel rankLE := fun a b => by
  unfold rankLE
  infer_instance

instance : IsRefl RPatient rankLE :=
  ⟨fun a => Or.inr ⟨rfl, Or.inr ⟨rfl, le_refl a.id⟩⟩⟩

instance : IsTotal RPatient rankLE := by
  constructor
  intro a b
  unfold rankLE
  rcases lt_trichotomy a.priority_score b.priority_score with hs | hs | hs
  · exact Or.inr (Or.inl hs)
  · rcases lt_trichotomy a.earliest_bookable_date b.earliest_bookable_date with
      hd | hd | hd
    · exact Or.inl (Or.inr ⟨hs, Or.inl hd⟩)
    · rcases Nat.le_total a.id b.id with hi | hi
      · exact Or.inl (Or.inr ⟨hs, Or.inr ⟨hd, hi⟩⟩)
      · exact Or.inr (Or.inr ⟨hs.symm, Or.inr ⟨hd.symm, hi⟩⟩)
    · exact Or.inr (Or.inr ⟨hs.symm, Or.inl hd⟩)
  · exact Or.inl (Or.inl hs)

instance : IsTrans RPatient rankLE := by
  constructor
  intro a b c hab hbc
  unfold rankLE at hab hbc ⊢
  rcases hab with h1 | ⟨h1, h2⟩ <;> rcases hbc with h3 | ⟨h3, h4⟩
  · exact Or.inl (lt_trans h3 h1)
  · exact Or.inl (by linarith)
  · exact Or.inl (by linarith)
  · refine Or.inr ⟨h1.trans h3, ?_⟩
    rcases h2 with h2 | ⟨h2, h2i⟩ <;> rcases h4 with h4 | ⟨h4, h4i⟩
    · exact Or.inl (lt_trans h2 h4)
    · exact Or.inl (by omega)
    · exact Or.inl (by omega)
    · exact Or.inr ⟨h2.trans h4, le_trans h2i h4i⟩

instance : IsAntisymm RPatient rankLE := by
  constructor
  intro a b hab hba
  unfold rankLE at hab hba
  obtain ⟨ia, sa, da⟩ := a
  obtain ⟨ib, sb, db⟩ := b
  simp only at hab hba ⊢
  rcases hab with h1 | ⟨h1, h2⟩
  · rcases hba with h3 | ⟨h3, _⟩
    · exact absurd (lt_trans h1 h3) (lt_irrefl _)
    · exact absurd h1 (by rw [h3]; exact lt_irrefl _)
  · rcases hba with h3 | ⟨h3, h4⟩
    · exact absurd h3 (by rw [h1]; exact lt_irrefl _)
    · rcases h2 with h2 | ⟨h2, h2i⟩ <;> rcases h4 with h4 | ⟨h4, h4i⟩
      · exact absurd (lt_trans h2 h4) (lt_irrefl _)
      · omega
      · omega
      · have : ia = ib := le_antisymm h2i h4i
        rw [this, h1, h2]

/-- Modelled from the spec: `rankForScarcity(roster, supplyRatio) ->
orderedList` — the ranking sorts the roster by `rankLE`; the supply ratio
selects which reservation rules activate but does not alter the ordering. -/
def rankForScarcity (roster : List RPatient) (supply : ℚ) : List RPatient :=
  List.insertionSort rankLE roster

/-- A patient precedes another strictly when the other is not ranked at or
before it. -/
def strictBefore (a : RPatient) : RPatient → Bool :=
  fun b => decide (¬ rankLE a b)

theorem sorted_indexOf_eq_countP (l : List RPatient)
    (hs : l.Sorted rankLE) (hn : l.Nodup) (a : RPatient) (ha : a ∈ l) :
    l.indexOf a = l.countP (strictBefore a) := by
  induction l with
  | nil => cases ha
  | cons x t ih =>
      obtain ⟨hxall, hst⟩ := List.sorted_cons.mp hs
      obtain ⟨hxnot, hnt⟩ := List.nodup_cons.mp hn
      rcases List.mem_cons.mp ha with hax | hat
      · subst hax
        rw [List.indexOf_cons_self, List.countP_cons]
        have hx : strictBefore a a = false := by
          simp [strictBefore, rankLE]
        have ht : t.countP (strictBefore a) = 0 := by
          rw [List.countP_eq_zero]
          intro b hb
          simp [strictBefore, hxall b hb]
        rw [hx, ht]
        simp
      · have hax : x ≠ a := fun he => hxnot (he ▸ hat)
        rw [List.indexOf_cons_ne t hax, List.countP_cons]
        have hxa : rankLE x a := hxall a hat
        have hnot : ¬ rankLE a x := fun hax2 => hax (antisymm hxa hax2)
        have hx : strictBefore a x = true := by
          simp [strictBefore, hnot]
        rw [hx, ih hst hnt hat]
        simp

theorem countP_strictBefore_mono (p p' : RPatient)
    (hscore : p.priority_score < p'.priority_score) (b : RPatient) :
    strictBefore p' b = true → strictBefore p b = true := by
  intro hb
  have hnb : ¬ rankLE p' b := by
    intro hpb
    simp [strictBefore, hpb] at hb
  have hnp : ¬ rankLE p b := by
    intro hpb
    apply hnb
    unfold rankLE at hpb ⊢
    rcases hpb with h | ⟨h, _⟩
    · exact Or.inl (lt_trans h hscore)
    · exact Or.inl (h ▸ hscore)
  simp [strictBefore, hnp]

/-- C3: `rankForScarcity` is deterministic — its output is the unique
ordering of the roster sorted by descending `priority_score` with ties
broken by earlier `earliest_bookable_date` and then by patient id, so two
runs on identical inputs produce the identical ordering — and strictly
increasing one patient's `priority_score` while holding all other patients
fixed never moves that patient to a lower rank. -/
theorem rankForScarcity_det_mono :
    (∀ (roster : List RPatient) (supply : ℚ),
      List.Perm (rankForScarcity roster supply) roster ∧
      (rankForScarcity roster supply).Sorted rankLE ∧
      (∀ out : List RPatient, List.Perm out roster → out.Sorted rankLE →
        out = rankForScarcity roster supply)) ∧
    (∀ (l₁ l₂ : List RPatient) (p : RPatient) (s2 : ℚ) (supply : ℚ),
      p.priority_score < s2 →
      (l₁ ++ p :: l₂).Nodup →
      (l₁ ++ RPatient.mk p.id s2 p.earliest_bookable_date :: l₂).Nodup →
      (rankForScarcity
          (l₁ ++ RPatient.mk p.id s2 p.earliest_bookable_date :: l₂)
          supply).indexOf (RPatient.mk p.id s2 p.earliest_bookable_date) ≤
        (rankForScarcity (l₁ ++ p :: l₂) supply).indexOf p) := by
  constructor
  · intro roster supply
    refine ⟨List.perm_insertionSort rankLE roster,
      List.sorted_insertionSort rankLE roster, ?_⟩
    intro out hperm hsort
    exact List.eq_of_perm_of_sorted
      (hperm.trans (List.perm_insertionSort rankLE roster).symm) hsort
      (List.sorted_insertionSort rankLE roster)
  · intro l₁ l₂ p s2 supply hscore hnd hnd2
    set p' : RPatient := RPatient.mk p.id s2 p.earliest_bookable_date with hp'
    have hscore' : p.priority_score < p'.priority_score := hscore
    have hperm : List.Perm (rankForScarcity (l₁ ++ p :: l₂) supply)
        (l₁ ++ p :: l₂) :=
      List.perm_insertionSort rankLE _
    have hperm2 : List.Perm (rankForScarcity (l₁ ++ p' :: l₂) supply)
        (l₁ ++ p' :: l₂) :=
      List.perm_insertionSort rankLE _
    have hidx : (rankForScarcity (l₁ ++ p :: l₂) supply).indexOf p =
        (rankForScarcity (l₁ ++ p :: l₂) supply).countP (strictBefore p) :=
      sorted_indexOf_eq_countP _ (List.sorted_insertionSort rankLE _)
        (hperm.nodup_iff.mpr hnd) p
        (hperm.mem_iff.mpr (by simp))
    have hidx2 : (rankForScarcity (l₁ ++ p' :: l₂) supply).indexOf p' =
        (rankForScarcity (l₁ ++ p' :: l₂) supply).countP (strictBefore p') :=
      sorted_indexOf_eq_countP _ (List.sorted_insertionSort rankLE _)
        (hperm2.nodup_iff.mpr hnd2) p'
        (hperm2.mem_iff.mpr (by simp))
    rw [hidx, hidx2, hperm.countP_eq, hperm2.countP_eq]
    have hself : strictBefore p p = false := by
      simp [strictBefore, rankLE]
    have hself2 : strictBefore p' p' = false := by
      simp [strictBefore, rankLE]
    rw [List.countP_append, List.countP_append, List.countP_cons,
      List.countP_cons, hself, hself2]
    have hmono1 : List.countP (strictBefore p') l₁ ≤
        List.countP (strictBefore p) l₁ :=
      List.countP_mono_left (fun b _ => countP_strictBefore_mono p p' hscore' b)
    have hmono2 : List.countP (strictBefore p') l₂ ≤
        List.countP (strictBefore p) l₂ :=
      List.countP_mono_left (fun b _ => countP_strictBefore_mono p p' hscore' b)
    omega

/-- Witness for C3 on a two-patient roster: raising the lower-ranked
patient's score to the top strictly improves (here: does not lower) their
index. -/
theorem rankForScarcity_det_mono_witness :
    (rankForScarcity
        ([RPatient.mk 1 50 0] ++ RPatient.mk 2 60 0 :: []) 1).indexOf
        (RPatient.mk 2 60 0) ≤
      (rankForScarcity ([RPatient.mk 1 50 0] ++ RPatient.mk 2 10 0 :: [])
        1).indexOf (RPatient.mk 2 10 0) :=
  rankForScarcity_det_mono.2 [RPatient.mk 1 50 0] [] (RPatient.mk 2 10 0)
    60 1 (by norm_num) (by decide) (by decide)

end PuarPatients
